import Mathlib

/-!
Verification of the NBA chat backend's execution engine against its design
specification.  The development shallowly embeds the Python sources:

* `src/nba_mcp_server/mcp_server.py` — the category-selection tool
  `get_tools_by_category` (tag normalisation, validation, sorted union).
* `src/server/openai_client.py` — `OpenAIClient.get_tool_subset` and the
  tool-calling conversation loop of `OpenAIClient.get_completion`.
* `src/server/agents/match_analysis/orchestrator.py` —
  `create_instructions_provider`, `call_function`, the refinement loop built
  from `LoopAgent`, `generate_research` / `write_editorial`, and
  `src/server/main.py`'s `generate_match_analysis` pipeline.

Pure functions become Lean functions; Python exceptions become `Except`;
the language model and the MCP tool backends are oracles supplied as
parameters.  Machine-specific behaviour that the claims do not touch
(JSON serialisation of message payloads, HTTP transport) is kept abstract.
-/

namespace NBAChat

/-! ## Python string ordering

Python compares strings lexicographically by Unicode code point; `sorted`
uses exactly this order.  We implement the comparison executably on the
character lists underlying Lean strings and feed it to Mathlib's
`List.insertionSort`, which supplies the sortedness and permutation lemmas.
-/

/-- Lexicographic (code-point) comparison of character lists, the order
Python uses to compare `str` values. -/
def charListLeB : List Char → List Char → Bool
  | [], _ => true
  | _ :: _, [] => false
  | a :: as, b :: bs =>
    if a.toNat < b.toNat then true
    else if b.toNat < a.toNat then false
    else charListLeB as bs

/-- Boolean form of Python's `<=` on strings. -/
def strLeB (a b : String) : Bool := charListLeB a.data b.data

/-- Propositional form of Python's `<=` on strings. -/
def strLe (a b : String) : Prop := strLeB a b = true

instance : DecidableRel strLe := fun a b => instDecidableEqBool (strLeB a b) true

theorem charListLeB_total (as : List Char) :
    ∀ bs, charListLeB as bs = true ∨ charListLeB bs as = true := by
  induction as with
  | nil => intro bs; left; rfl
  | cons x xs ih =>
    intro bs
    cases bs with
    | nil => right; rfl
    | cons y ys =>
      by_cases h1 : x.toNat < y.toNat
      · left; simp [charListLeB, h1]
      · by_cases h2 : y.toNat < x.toNat
        · right; simp [charListLeB, h1, h2]
        · rcases ih ys with h | h
          · left; simp [charListLeB, h1, h2, h]
          · right; simp [charListLeB, h1, h2, h]

theorem charListLeB_trans (as : List Char) :
    ∀ bs cs, charListLeB as bs = true → charListLeB bs cs = true →
      charListLeB as cs = true := by
  induction as with
  | nil => intro bs cs _ _; rfl
  | cons x xs ih =>
    intro bs cs hab hbc
    cases bs with
    | nil => simp [charListLeB] at hab
    | cons y ys =>
      cases cs with
      | nil => simp [charListLeB] at hbc
      | cons z zs =>
        simp only [charListLeB] at hab hbc ⊢
        by_cases hxy : x.toNat < y.toNat
        · by_cases hyz : y.toNat < z.toNat
          · have hxz : x.toNat < z.toNat := Nat.lt_trans hxy hyz
            simp [hxz]
          · by_cases hzy : z.toNat < y.toNat
            · simp [hyz, hzy] at hbc
            · have hxz : x.toNat < z.toNat := by omega
              simp [hxz]
        · by_cases hyx : y.toNat < x.toNat
          · simp [hxy, hyx] at hab
          · simp only [hxy, hyx, if_false] at hab
            by_cases hyz : y.toNat < z.toNat
            · have hxz : x.toNat < z.toNat := by omega
              simp [hxz]
            · by_cases hzy : z.toNat < y.toNat
              · simp [hyz, hzy] at hbc
              · simp only [hyz, hzy, if_false] at hbc
                have hxz1 : ¬ x.toNat < z.toNat := by omega
                have hxz2 : ¬ z.toNat < x.toNat := by omega
                simp only [hxz1, hxz2, if_false]
                exact ih ys zs hab hbc

theorem strLe_total (a b : String) : strLe a b ∨ strLe b a :=
  charListLeB_total a.data b.data

theorem strLe_trans (a b c : String) (hab : strLe a b) (hbc : strLe b c) :
    strLe a c :=
  charListLeB_trans a.data b.data c.data hab hbc

instance : IsTotal String strLe := ⟨strLe_total⟩

instance : IsTrans String strLe := ⟨fun a b c => strLe_trans a b c⟩

/-- Python's `sorted` on a list of strings. -/
def pySortedStrs (l : List String) : List String := List.insertionSort strLe l

theorem pySortedStrs_sorted (l : List String) :
    List.Sorted strLe (pySortedStrs l) :=
  List.sorted_insertionSort strLe l

theorem pySortedStrs_mem (l : List String) (a : String) :
    a ∈ pySortedStrs l ↔ a ∈ l :=
  (List.perm_insertionSort strLe l).mem_iff

theorem pySortedStrs_nodup (l : List String) (h : l.Nodup) :
    (pySortedStrs l).Nodup :=
  (List.perm_insertionSort strLe l).nodup_iff.mpr h

/-! ## `nba_mcp_server/mcp_server.py`: the category-selection tool -/

/-- Python `str.lower()`, character by character (`Char.toLower` covers the
ASCII range, which is all the category taxonomy uses). -/
def pyLower (s : String) : String := String.mk (s.data.map Char.toLower)

/-- Python `str.strip()`: drop leading and trailing whitespace. -/
def pyStrip (s : String) : String :=
  String.mk (((s.data.dropWhile Char.isWhitespace).reverse.dropWhile
    Char.isWhitespace).reverse)

/-- The normalisation `c.lower().strip()` applied to each requested tag in
`get_tools_by_category` (mcp_server.py line 41). -/
def normalizeTag (c : String) : String := pyStrip (pyLower c)

/-- The set `ALLOWED` (mcp_server.py line 22): every `ToolCategory` value except the
always-included `"base"`, in enum declaration order. -/
def ALLOWED : List String :=
  ["player", "team", "league", "game", "boxscore", "draft", "franchise",
   "playoff", "season"]

/-- The rendering Python's f-string gives a sorted list of strings, as used
in the `ValueError` message of `get_tools_by_category`
(`['a', 'b']`; `\x27` is the ASCII apostrophe). -/
def pyListRepr (l : List String) : String :=
  "[" ++ String.intercalate ", " (l.map (fun s => "\x27" ++ s ++ "\x27")) ++ "]"

/-- Embedding of `get_tools_by_category` (mcp_server.py lines 25-47): normalise the
requested tags into a set, reject the request with a `ValueError`
(`Except.error`) when any normalised tag is outside `ALLOWED`, and otherwise
return the sorted union of the normalised tags with `"base"`.  Python's
sets are modelled by deduplicated lists; both the invalid set and the result
are sorted before they are observable, so set iteration order is immaterial. -/
def get_tools_by_category (categories : List String) : Except String (List String) :=
  let requested := (categories.map normalizeTag).dedup
  let invalid := requested.filter (fun c => decide (c ∉ ALLOWED))
  if invalid = [] then
    Except.ok (pySortedStrs ((requested ++ ["base"]).dedup))
  else
    Except.error ("Invalid categories: " ++ pyListRepr (pySortedStrs invalid) ++
      ". Allowed: " ++ pyListRepr (pySortedStrs ALLOWED))

theorem gtbc_error_iff (categories : List String) :
    (∃ e, get_tools_by_category categories = Except.error e) ↔
      ∃ c ∈ categories, normalizeTag c ∉ ALLOWED := by
  unfold get_tools_by_category
  by_cases hinv :
      ((categories.map normalizeTag).dedup.filter (fun c => decide (c ∉ ALLOWED))) = []
  · simp only [hinv, if_pos rfl]
    constructor
    · rintro ⟨e, he⟩; cases he
    · rintro ⟨c, hc, hnc⟩
      exfalso
      have : normalizeTag c ∈
          ((categories.map normalizeTag).dedup.filter (fun c => decide (c ∉ ALLOWED))) := by
        rw [List.mem_filter]
        refine ⟨?_, by simpa using hnc⟩
        rw [List.mem_dedup]
        exact List.mem_map_of_mem normalizeTag hc
      rw [hinv] at this
      exact (List.not_mem_nil _ this)
  · simp only [hinv, if_neg hinv]
    constructor
    · intro _
      rcases List.exists_mem_of_ne_nil _ hinv with ⟨a, ha⟩
      rcases List.mem_filter.mp ha with ⟨ha1, ha2⟩
      rcases List.mem_map.mp (List.mem_dedup.mp ha1) with ⟨c, hc, hce⟩
      exact ⟨c, hc, by rw [hce]; simpa using ha2⟩
    · intro _; exact ⟨_, rfl⟩

theorem gtbc_error_msg (categories : List String) (e : String)
    (h : get_tools_by_category categories = Except.error e) :
    e = "Invalid categories: " ++
        pyListRepr (pySortedStrs
          ((categories.map normalizeTag).dedup.filter (fun c => decide (c ∉ ALLOWED)))) ++
      ". Allowed: " ++ pyListRepr (pySortedStrs ALLOWED) := by
  unfold get_tools_by_category at h
  by_cases hinv :
      ((categories.map normalizeTag).dedup.filter (fun c => decide (c ∉ ALLOWED))) = []
  · simp only [hinv, if_pos rfl] at h; cases h
  · simp only [if_neg hinv] at h
    cases h; rfl

theorem gtbc_ok_spec (categories : List String) (l : List String)
    (h : get_tools_by_category categories = Except.ok l) :
    List.Sorted strLe l ∧ l.Nodup ∧
      (∀ s, s ∈ l ↔ s = "base" ∨ ∃ c ∈ categories, normalizeTag c = s) := by
  unfold get_tools_by_category at h
  by_cases hinv :
      ((categories.map normalizeTag).dedup.filter (fun c => decide (c ∉ ALLOWED))) = []
  · simp only [hinv, if_pos rfl] at h
    cases h
    refine ⟨pySortedStrs_sorted _, pySortedStrs_nodup _ (List.nodup_dedup _), ?_⟩
    intro s
    rw [pySortedStrs_mem, List.mem_dedup, List.mem_append, List.mem_dedup,
      List.mem_map]
    constructor
    · rintro (⟨c, hc, hce⟩ | hs)
      · exact Or.inr ⟨c, hc, hce⟩
      · simp at hs; exact Or.inl hs
    · rintro (hs | ⟨c, hc, hce⟩)
      · right; simp [hs]
      · exact Or.inl ⟨c, hc, hce⟩
  · simp only [if_neg hinv] at h; cases h

/-! ## `server/openai_client.py`: the tool-calling conversation loop

`OpenAIClient.get_completion` repeatedly sends the running transcript plus
the currently visible tools to the model, executes every tool call the model
requests against one of the MCP sessions, and stops at the first response
without tool calls.  The model is an oracle: a script of responses consumed
one per exchange.  The MCP backends are an oracle `Backend` producing
`CallToolResult`s keyed by tool name and arguments.
-/

/-- A tool in OpenAI function format.  `mcp_tools_to_openai_tools` carries
`name`, `description` and the parameter schema; the conversation loop only
ever inspects `tool["function"]["name"]`, so the other two fields are
omitted from the model. -/
structure OATool where
  name : String
  deriving DecidableEq

/-- JSON values appearing at the `"result"` key of a tool-result payload:
either a string (text payloads, including backend error text) or a list of
strings (the category-selection tool's return value). -/
inductive JVal where
  | jstr (s : String)
  | jlist (xs : List String)
  deriving DecidableEq

/-- An MCP `CallToolResult` as `get_completion` consumes it: the optional
`structuredContent` object (an association list of JSON fields) and the
`content` fragments, each with an optional `text` attribute. -/
structure CallToolResult where
  structuredContent : Option (List (String × JVal))
  content : List (Option String)
  deriving DecidableEq

/-- The expression `"\n".join(c.text for c in result.content if getattr(c, "text", None))`
(openai_client.py lines 101-103): fragments without text, and fragments with
falsy (empty) text, are skipped. -/
def joinedText (content : List (Option String)) : String :=
  String.intercalate "\n" ((content.filterMap id).filter (fun t => t != ""))

/-- The assignment `payload = result.structuredContent or ...` (lines 100-104): the
structured payload when present, else the concatenated text wrapped as a
one-field `result` object. -/
def payloadOfResult (r : CallToolResult) : List (String × JVal) :=
  match r.structuredContent with
  | some p => p
  | none => [("result", JVal.jstr (joinedText r.content))]

/-- Python iteration over the value of `payload.get("result", [])` as
performed by `get_tool_subset`'s `for category in categories`: a list yields
its elements, a string yields its characters as length-one strings. -/
def pyIterStrs : JVal → List String
  | JVal.jstr s => s.data.map (fun c => String.mk [c])
  | JVal.jlist xs => xs

/-- The inner `for tool in self.nba_tools_by_category[category]` of
`get_tool_subset` (lines 60-64): append each tool whose name has not been
seen, recording seen names. -/
def addCategoryTools : List OATool → List String → List OATool →
    List String × List OATool
  | [], seen, acc => (seen, acc)
  | t :: ts, seen, acc =>
    if t.name ∈ seen then addCategoryTools ts seen acc
    else addCategoryTools ts (seen ++ [t.name]) (acc ++ [t])

/-- The outer loop of `get_tool_subset`; `byCat.lookup category` failing is
Python's `KeyError` on `self.nba_tools_by_category[category]`, carried as
`Except.error` with the offending key. -/
def get_tool_subset_aux (byCat : List (String × List OATool)) :
    List String → List String → List OATool → Except String (List OATool)
  | [], _, acc => Except.ok acc
  | c :: cs, seen, acc =>
    match byCat.lookup c with
    | none => Except.error c
    | some ts =>
      let r := addCategoryTools ts seen acc
      get_tool_subset_aux byCat cs r.1 r.2

/-- Embedding of `OpenAIClient.get_tool_subset` (openai_client.py lines 57-65). -/
def get_tool_subset (byCat : List (String × List OATool))
    (categories : List String) : Except String (List OATool) :=
  get_tool_subset_aux byCat categories [] []

/-- Message content as the loop appends it: plain text, or a tool-result
payload.  The source serialises payloads with `json.dumps` before appending;
the serialised string is opaque to the loop, so the payload is kept
structured here. -/
inductive MsgContent where
  | text (s : String)
  | payload (p : List (String × JVal))
  deriving DecidableEq

/-- One transcript entry of `full_messages`. -/
structure Msg where
  role : String
  tool_call_id : Option String
  content : Option MsgContent
  deriving DecidableEq

/-- One tool call requested by a model response.  `args` is the parsed JSON
argument object, forwarded verbatim to the backend; for the
category-selection tool it is the requested tag list, the only argument the
loop itself ever interprets. -/
structure ToolCall where
  id : String
  name : String
  args : List String
  deriving DecidableEq

/-- One model response: optional text content and the requested tool calls
(`msg.tool_calls`, falsy when absent or empty). -/
structure ModelMsg where
  content : Option String
  tool_calls : List ToolCall
  deriving DecidableEq

/-- The Python exceptions that can escape `get_completion`. -/
inductive PyErr where
  | keyError (key : String)
  | noMoreResponses
  deriving DecidableEq

/-- The per-conversation mutable state of the loop: the transcript and the
currently visible tool list. -/
structure LoopState where
  full_messages : List Msg
  current_tools : List OATool
  deriving DecidableEq

/-- The fields of `OpenAIClient` the loop reads: the tool-to-session routing
map built in `__init__` (lines 36-40), the per-category tool bins
(lines 44-55) and the always-attached Perplexity tools. -/
structure OpenAIClientState where
  tool_to_session : List (String × String)
  nba_tools_by_category : List (String × List OATool)
  persistent_tools_openai : List OATool

/-- A tool backend oracle: the `CallToolResult` produced by
`session.call_tool(fn, args)`. -/
def Backend := String → List String → CallToolResult

/-- The assistant turn appended for a model response
(`full_messages.append(msg.model_dump())`, line 88). -/
def assistantMsgOf (m : ModelMsg) : Msg :=
  { role := "assistant", tool_call_id := none,
    content := m.content.map MsgContent.text }

/-- The acknowledgement turn appended after a category-selection call
(line 110). -/
def toolAckMsg (id : String) : Msg :=
  { role := "tool", tool_call_id := some id,
    content := some (MsgContent.text "Updated tool set.") }

/-- Execution of one requested tool call (openai_client.py lines 91-112):
route the name through `tool_to_session` (a missing name is a `KeyError`),
invoke the backend, build the payload, and either rebuild `current_tools`
(category-selection call) or append the payload as that call's tool-result
turn. -/
def processCall (cli : OpenAIClientState) (backend : Backend)
    (st : LoopState) (call : ToolCall) : Except PyErr LoopState :=
  match cli.tool_to_session.lookup call.name with
  | none => Except.error (PyErr.keyError call.name)
  | some _ =>
    let result := backend call.name call.args
    let payload := payloadOfResult result
    if call.name = "get_tools_by_category" then
      let categories := (payload.lookup "result").getD (JVal.jlist [])
      match get_tool_subset cli.nba_tools_by_category (pyIterStrs categories) with
      | Except.error k => Except.error (PyErr.keyError k)
      | Except.ok new_tools =>
        Except.ok
          { full_messages := st.full_messages ++ [toolAckMsg call.id],
            current_tools := new_tools ++ cli.persistent_tools_openai }
    else
      Except.ok
        { full_messages := st.full_messages ++
            [{ role := "tool", tool_call_id := some call.id,
               content := some (MsgContent.payload payload) }],
          current_tools := st.current_tools }

/-- The loop `for call in msg.tool_calls` (line 91), failing fast on the first
uncaught exception. -/
def processCalls (cli : OpenAIClientState) (backend : Backend) :
    LoopState → List ToolCall → Except PyErr LoopState
  | st, [] => Except.ok st
  | st, c :: cs =>
    match processCall cli backend st c with
    | Except.error e => Except.error e
    | Except.ok st2 => processCalls cli backend st2 cs

/-- The `while True` exchange loop of `get_completion` (lines 73-118),
driven by the model-response script: append the response, stop and return
`msg.content` when it carries no tool calls, else execute the calls and
continue.  Running out of scripted responses stands for a failed model
exchange. -/
def runConv (cli : OpenAIClientState) (backend : Backend) :
    List ModelMsg → LoopState → Except PyErr (Option String)
  | [], _ => Except.error PyErr.noMoreResponses
  | m :: rest, st =>
    let st1 : LoopState :=
      { full_messages := st.full_messages ++ [assistantMsgOf m],
        current_tools := st.current_tools }
    match m.tool_calls with
    | [] => Except.ok m.content
    | c :: cs =>
      match processCalls cli backend st1 (c :: cs) with
      | Except.error e => Except.error e
      | Except.ok st2 => runConv cli backend rest st2

/-- Embedding of `OpenAIClient.get_completion` (lines 67-118): prepend the system prompt,
start from the `"base"` bin plus the persistent tools, and run the exchange
loop. -/
def get_completion (cli : OpenAIClientState) (backend : Backend)
    (script : List ModelMsg) (system_prompt : String) (messages : List Msg) :
    Except PyErr (Option String) :=
  let full_messages :=
    ({ role := "system", tool_call_id := none,
       content := some (MsgContent.text system_prompt) } : Msg) :: messages
  match cli.nba_tools_by_category.lookup "base" with
  | none => Except.error (PyErr.keyError "base")
  | some base =>
    runConv cli backend script
      { full_messages := full_messages,
        current_tools := base ++ cli.persistent_tools_openai }

/-- Modelled from the spec: the MCP server framework's tool-execution
envelope (FastMCP, a third-party dependency, so not part of src/).  A tool
that returns normally yields a structured payload carrying the value at the
`"result"` field; a tool that raises is captured by the framework and
reported as an error result whose only content fragment is the exception
message prefixed with `Error executing tool <name>: `, with no structured
content — per spec section 4.3 (a failing invocation is "captured as a
textual error payload") and section 6 (a result is "a structured payload
(preferred) ... or a text payload").  The category-selection tool itself is
`get_tools_by_category` from src/, embedded above. -/
def mkNbaBackend (other : String → List String → CallToolResult) : Backend :=
  fun name args =>
    if name = "get_tools_by_category" then
      match get_tools_by_category args with
      | Except.ok cats =>
          { structuredContent := some [("result", JVal.jlist cats)],
            content := [] }
      | Except.error msg =>
          { structuredContent := none,
            content := [some ("Error executing tool get_tools_by_category: " ++ msg)] }
    else other name args

/-! ## `server/agents/match_analysis/orchestrator.py` -/

/-- Embedding of `create_instructions_provider` (orchestrator.py lines 24-35): the
returned provider reads `ctx.state.get(trigger_key, "")` and yields the
trigger-found instructions exactly when that value is non-empty.  Session
state is an association list from output keys to the stored strings. -/
def create_instructions_provider (trigger_key : String)
    (trigger_found_instructions : String) (trigger_absent_instructions : String) :
    List (String × String) → String :=
  fun ctx_state =>
    let target := (ctx_state.lookup trigger_key).getD ""
    if target.length > 0 then trigger_found_instructions
    else trigger_absent_instructions

/-- A Python callable as `call_function` sees it: its declared parameter
names in signature order (`inspect.signature(func).parameters.keys()`) and
its body, which receives the keyword arguments actually passed. -/
structure PyFunction (α : Type) where
  params : List String
  impl : List (String × String) → α

/-- Embedding of `call_function` (orchestrator.py lines 50-66): build the
`params_to_pass` dict by keeping, in signature order, each declared
parameter that is one of the three available run parameters, then call the
function once with exactly those keyword arguments.  The second component
records the invocations performed (the source contains a single call site,
`func(**params_to_pass)`). -/
def call_function {α : Type} (func : PyFunction α)
    (team1 team2 game_date : String) : α × List (List (String × String)) :=
  let available_params :=
    [("team1", team1), ("team2", team2), ("game_date", game_date)]
  let params_to_pass :=
    func.params.filterMap
      (fun n => (available_params.lookup n).map (fun v => (n, v)))
  (func.impl params_to_pass, [params_to_pass])

/-- The critic's judgment of a candidate, communicated either through the
distinguished `exit_loop` function call or as textual feedback stored under
the `critique` output key. -/
inductive CriticVerdict where
  | accept
  | feedback (text : String)

/-- The constant `max_iterations=3`, the bound passed to every `LoopAgent` in the
repository (orchestrator.py lines 119-123 and 308-312). -/
def MAX_ITERATIONS : Nat := 3

/-- Modelled from the spec: the bounded worker/critic loop that
`LoopAgent` (google.adk, a third-party framework, so not part of src/)
executes, per spec section 4.2.  The first argument is the remaining
iteration budget; `iteration` counts from 0 and `last_critique` is empty on
the first pass (`state = ..critique: ""..` at session creation).  Each pass
invokes the worker once on the current critique, then the critic on the
candidate; an accept signal returns the candidate, exhausting the budget
force-accepts the last candidate.  The result pairs the final output with
the number of worker invocations performed. -/
def refineLoop (worker : Nat → String → String)
    (critic : String → CriticVerdict) :
    Nat → Nat → String → String × Nat
  | 0, _, _ => ("", 0)
  | fuel + 1, iteration, last_critique =>
    let candidate := worker iteration last_critique
    match critic candidate with
    | CriticVerdict.accept => (candidate, 1)
    | CriticVerdict.feedback f =>
      match fuel with
      | 0 => (candidate, 1)
      | fuel2 + 1 =>
        let r := refineLoop worker critic (fuel2 + 1) (iteration + 1) f
        (r.1, r.2 + 1)

/-- A refinement loop run with the repository's iteration bound, starting
from iteration 0 with an empty critique. -/
def refinementRun (worker : Nat → String → String)
    (critic : String → CriticVerdict) : String × Nat :=
  refineLoop worker critic MAX_ITERATIONS 0 ""

/-- The text events collected from the editorial `LoopAgent` run inside
`write_editorial` (orchestrator.py lines 308-336).  The loop alternates the
writer and the critic; the critic there is constructed without any tools
(lines 177-182), so it can never emit the `exit_loop` signal and the loop
always runs its full `max_iterations=3` budget (loop bounds modelled from
spec section 4.2 as for `refineLoop`).  Each event is an
`(author, text)` pair, as accumulated by the `runner.run_async` harvest at
lines 327-336; the critic's text is stored into the `critique` state key and
conditions the writer's next instructions. -/
def editorialEvents (writerStep : Nat → String → String)
    (criticStep : String → String) :
    Nat → Nat → String → List (String × String)
  | 0, _, _ => []
  | fuel + 1, iteration, last_critique =>
    let candidate := writerStep iteration last_critique
    let critique := criticStep candidate
    ("writer", candidate) :: ("critic", critique) ::
      editorialEvents writerStep criticStep fuel (iteration + 1) critique

/-- The result selection of `write_editorial` (orchestrator.py line 337):
`return results[-1][1]`, the text of the last collected event.  An empty
event list would be Python's `IndexError`; it cannot occur for the
three-iteration loop. -/
def write_editorial_result (writerStep : Nat → String → String)
    (criticStep : String → String) : String :=
  match (editorialEvents writerStep criticStep MAX_ITERATIONS 0 "").getLast? with
  | some r => r.2
  | none => ""

/-! ## The research pipeline and its execution counts

`generate_match_analysis` (main.py lines 262-288) first awaits
`orchestrator.generate_research` and then passes the findings to
`orchestrator.write_editorial`.  `write_editorial` (orchestrator.py
line 175) immediately rebinds its `research_findings` parameter to a fresh
`await generate_research(team1, team2, game_date)`.  The model tracks, for
one pipeline invocation, which research tasks' underlying logic
(agent loops and data-gathering functions) is executed, by name and in
order; the content produced by each task is abstracted as `logic`. -/

/-- Embedding of `generate_research` (orchestrator.py lines 159-171): run every research
task's logic once — the agent loops via `asyncio.gather`, the data
functions via `call_function` — and return the name-to-findings map.  The
second component is the execution log of this call: each task name appears
once. -/
def generate_research (tasks : List String) (logic : String → String) :
    List (String × String) × List String :=
  (tasks.map (fun n => (n, logic n)), tasks)

/-- Embedding of `write_editorial` (orchestrator.py lines 173-337) as the pipeline sees
it: the `research_findings` argument is discarded — line 175 recomputes
`research_findings = await generate_research(...)` — after which the
editorial loop writes the report from the recomputed findings
(abstracted by `writeup`).  Returns the report plus the execution log of
the call. -/
def write_editorial_pipeline (tasks : List String) (logic : String → String)
    (writeup : List (String × String) → String)
    (research_findings : List (String × String)) : String × List String :=
  let recomputed := generate_research tasks logic
  (writeup recomputed.1, recomputed.2)

/-- Embedding of `generate_match_analysis` (main.py lines 262-288): step 1 runs the
research agents, step 2 hands the findings to the writer.  The result pairs
the report content with the concatenated execution log of the run. -/
def generate_match_analysis (tasks : List String) (logic : String → String)
    (writeup : List (String × String) → String) : String × List String :=
  let research_findings := generate_research tasks logic
  let report := write_editorial_pipeline tasks logic writeup research_findings.1
  (report.1, research_findings.2 ++ report.2)

/-- The research tasks one pipeline run resolves, by the names
`write_editorial` consumes from the findings map plus the remaining
configured research agents and data functions (research_configs.py). -/
def researchTaskNames : List String :=
  ["team_performance", "player_performance", "inactive_players", "odds",
   "rivalry", "schedule"]

/-! ## Supporting lemmas -/

theorem string_length_pos_iff (s : String) : 0 < s.length ↔ s ≠ "" := by
  cases s with
  | mk data =>
    cases data with
    | nil => decide
    | cons c cs =>
      constructor
      · intro _ h
        have := congrArg String.data h
        simp at this
      · intro _
        simp [String.length]

theorem joinedText_single (t : String) (h : t ≠ "") : joinedText [some t] = t := by
  have hb : (t != "") = true := bne_iff_ne.mpr h
  simp [joinedText, hb, String.intercalate, String.intercalate.go]

theorem addCategoryTools_spec (ts : List OATool) :
    ∀ acc : List OATool, (acc.map OATool.name).Nodup →
      (addCategoryTools ts (acc.map OATool.name) acc).1 =
        (addCategoryTools ts (acc.map OATool.name) acc).2.map OATool.name ∧
      ((addCategoryTools ts (acc.map OATool.name) acc).2.map OATool.name).Nodup ∧
      (∀ n, n ∈ (addCategoryTools ts (acc.map OATool.name) acc).2.map OATool.name ↔
        n ∈ acc.map OATool.name ∨ n ∈ ts.map OATool.name) := by
  induction ts with
  | nil =>
    intro acc hnd
    refine ⟨rfl, hnd, ?_⟩
    intro n; simp [addCategoryTools]
  | cons t ts ih =>
    intro acc hnd
    by_cases hmem : t.name ∈ acc.map OATool.name
    · have hrw : addCategoryTools (t :: ts) (acc.map OATool.name) acc =
          addCategoryTools ts (acc.map OATool.name) acc := by
        simp [addCategoryTools, hmem]
      rw [hrw]
      rcases ih acc hnd with ⟨h1, h2, h3⟩
      refine ⟨h1, h2, ?_⟩
      intro n
      rw [h3 n]
      constructor
      · rintro (h | h)
        · exact Or.inl h
        · rw [List.map_cons]
          exact Or.inr (List.mem_cons_of_mem _ h)
      · rintro (h | h)
        · exact Or.inl h
        · rw [List.map_cons] at h
          rcases List.mem_cons.mp h with h | h
          · exact Or.inl (h ▸ hmem)
          · exact Or.inr h
    · have hrw : addCategoryTools (t :: ts) (acc.map OATool.name) acc =
          addCategoryTools ts ((acc ++ [t]).map OATool.name) (acc ++ [t]) := by
        simp [addCategoryTools, hmem]
      rw [hrw]
      have hnd2 : ((acc ++ [t]).map OATool.name).Nodup := by
        rw [List.map_append]
        simp [List.nodup_append, hnd, hmem]
      rcases ih (acc ++ [t]) hnd2 with ⟨h1, h2, h3⟩
      refine ⟨h1, h2, ?_⟩
      intro n
      rw [h3 n, List.map_append]
      constructor
      · rintro (h | h)
        · rcases List.mem_append.mp h with h | h
          · exact Or.inl h
          · simp at h
            rw [List.map_cons]
            exact Or.inr (h ▸ List.mem_cons_self _ _)
        · rw [List.map_cons]
          exact Or.inr (List.mem_cons_of_mem _ h)
      · rintro (h | h)
        · exact Or.inl (List.mem_append.mpr (Or.inl h))
        · rw [List.map_cons] at h
          rcases List.mem_cons.mp h with h | h
          · exact Or.inl (List.mem_append.mpr (Or.inr (by simp [h])))
          · exact Or.inr h

theorem get_tool_subset_aux_spec (byCat : List (String × List OATool))
    (cats : List String) :
    ∀ acc : List OATool, (acc.map OATool.name).Nodup →
      (∀ c ∈ cats, (byCat.lookup c).isSome = true) →
      ∃ res, get_tool_subset_aux byCat cats (acc.map OATool.name) acc =
          Except.ok res ∧
        (res.map OATool.name).Nodup ∧
        (∀ n, n ∈ res.map OATool.name ↔ n ∈ acc.map OATool.name ∨
          ∃ c ∈ cats, ∃ ts, byCat.lookup c = some ts ∧ n ∈ ts.map OATool.name) := by
  induction cats with
  | nil =>
    intro acc hnd _
    exact ⟨acc, rfl, hnd, fun n => by simp⟩
  | cons c cs ih =>
    intro acc hnd hkeys
    rcases Option.isSome_iff_exists.mp (hkeys c (List.mem_cons_self c cs)) with ⟨ts, hts⟩
    rcases addCategoryTools_spec ts acc hnd with ⟨h1, h2, h3⟩
    have hkeys2 : ∀ c2 ∈ cs, (byCat.lookup c2).isSome = true :=
      fun c2 hc2 => hkeys c2 (List.mem_cons_of_mem c hc2)
    rcases ih (addCategoryTools ts (acc.map OATool.name) acc).2 h2 hkeys2 with
      ⟨res, hres, hnd3, hmem3⟩
    refine ⟨res, ?_, hnd3, ?_⟩
    · have hrw : get_tool_subset_aux byCat (c :: cs) (acc.map OATool.name) acc =
          get_tool_subset_aux byCat cs
            (addCategoryTools ts (acc.map OATool.name) acc).1
            (addCategoryTools ts (acc.map OATool.name) acc).2 := by
        simp [get_tool_subset_aux, hts]
      rw [hrw, h1]
      exact hres
    · intro n
      rw [hmem3 n, h3 n]
      constructor
      · rintro ((h | h) | h)
        · exact Or.inl h
        · exact Or.inr ⟨c, List.mem_cons_self c cs, ts, hts, h⟩
        · rcases h with ⟨c2, hc2, ts2, hts2, hn2⟩
          exact Or.inr ⟨c2, List.mem_cons_of_mem c hc2, ts2, hts2, hn2⟩
      · rintro (h | ⟨c2, hc2, ts2, hts2, hn2⟩)
        · exact Or.inl (Or.inl h)
        · rcases List.mem_cons.mp hc2 with hc2 | hc2
          · subst hc2
            rw [hts] at hts2
            cases hts2
            exact Or.inl (Or.inr hn2)
          · exact Or.inr ⟨c2, hc2, ts2, hts2, hn2⟩

theorem get_tool_subset_spec (byCat : List (String × List OATool))
    (cats : List String) (hkeys : ∀ c ∈ cats, (byCat.lookup c).isSome = true) :
    ∃ res, get_tool_subset byCat cats = Except.ok res ∧
      (res.map OATool.name).Nodup ∧
      (∀ n, n ∈ res.map OATool.name ↔
        ∃ c ∈ cats, ∃ ts, byCat.lookup c = some ts ∧ n ∈ ts.map OATool.name) := by
  have h := get_tool_subset_aux_spec byCat cats [] (by simp) hkeys
  rcases h with ⟨res, hres, hnd, hmem⟩
  exact ⟨res, hres, hnd, fun n => by simpa using hmem n⟩

/-- The value Python's `available_params[n]` carries for each of the three
run parameters (`call_function`, orchestrator.py line 57). -/
def availableAssign (team1 team2 game_date : String) (n : String) : String :=
  if n = "team1" then team1 else if n = "team2" then team2 else game_date

theorem params_to_pass_eq (t1 t2 gd : String) (ps : List String)
    (hsub : ∀ p ∈ ps, p = "team1" ∨ p = "team2" ∨ p = "game_date") :
    ps.filterMap (fun n =>
      (([("team1", t1), ("team2", t2), ("game_date", gd)] :
        List (String × String)).lookup n).map (fun v => (n, v))) =
    ps.map (fun n => (n, availableAssign t1 t2 gd n)) := by
  induction ps with
  | nil => rfl
  | cons p ps ih =>
    have hp := hsub p (List.mem_cons_self p ps)
    have hps : ∀ q ∈ ps, q = "team1" ∨ q = "team2" ∨ q = "game_date" :=
      fun q hq => hsub q (List.mem_cons_of_mem p hq)
    rcases hp with h | h | h <;> subst h <;>
      simp only [List.filterMap_cons, List.map_cons, ih hps] <;> rfl

/-! ## Claim theorems -/

/-- C6: `get_tools_by_category` normalises each requested tag by lowercasing
and stripping whitespace; it raises a `ValueError` listing the invalid tags
and the full valid set exactly when some normalised tag is outside the
allowed (non-base) categories, and otherwise returns the deduplicated union
of the normalised tags with the always-visible `"base"`, sorted in Python's
string order. -/
theorem get_tools_by_category_spec (categories : List String) :
    ((∃ e, get_tools_by_category categories = Except.error e) ↔
      ∃ c ∈ categories, normalizeTag c ∉ ALLOWED) ∧
    (∀ e, get_tools_by_category categories = Except.error e →
      e = "Invalid categories: " ++ pyListRepr (pySortedStrs
            ((categories.map normalizeTag).dedup.filter
              (fun c => decide (c ∉ ALLOWED)))) ++
        ". Allowed: " ++ pyListRepr (pySortedStrs ALLOWED)) ∧
    (∀ l, get_tools_by_category categories = Except.ok l →
      List.Sorted strLe l ∧ l.Nodup ∧
        (∀ s, s ∈ l ↔ s = "base" ∨ ∃ c ∈ categories, normalizeTag c = s)) :=
  ⟨gtbc_error_iff categories,
   fun e he => gtbc_error_msg categories e he,
   fun l hl => gtbc_ok_spec categories l hl⟩

/-- Witness for C6: the mixed-case, whitespace-padded request
`[" PLAYER", "Team "]` succeeds and yields the sorted, deduplicated union
with `"base"`. -/
theorem get_tools_by_category_spec_witness :
    List.Sorted strLe ["base", "player", "team"] ∧
      (["base", "player", "team"] : List String).Nodup ∧
      (∀ s, s ∈ (["base", "player", "team"] : List String) ↔
        s = "base" ∨ ∃ c ∈ ([" PLAYER", "Team "] : List String),
          normalizeTag c = s) :=
  (get_tools_by_category_spec [" PLAYER", "Team "]).2.2
    ["base", "player", "team"] rfl

/-- C8: the instruction provider built by `create_instructions_provider` is
a pure function of the session state's value at `trigger_key`: it returns
the trigger-found instructions exactly when that value is a non-empty
string, returns the original instructions when the value is missing or
empty, and two states agreeing at `trigger_key` receive the same
instructions regardless of any other key. -/
theorem create_instructions_provider_spec (k f a : String)
    (st : List (String × String)) (hfa : f ≠ a) :
    (create_instructions_provider k f a st = f ↔
      ∃ v, st.lookup k = some v ∧ v ≠ "") ∧
    (create_instructions_provider k f a st = a ↔
      (st.lookup k = none ∨ st.lookup k = some "")) ∧
    (∀ st2, st.lookup k = st2.lookup k →
      create_instructions_provider k f a st =
        create_instructions_provider k f a st2) := by
  have h0 : ¬ 0 < ("" : String).length := by decide
  have hfa2 : a ≠ f := Ne.symm hfa
  refine ⟨?_, ?_, ?_⟩
  · cases hl : st.lookup k with
    | none => simp [create_instructions_provider, hl, h0, hfa2]
    | some v =>
      by_cases hv : v = ""
      · subst hv
        simp [create_instructions_provider, hl, h0, hfa2]
      · have hpos : 0 < v.length := (string_length_pos_iff v).mpr hv
        simp [create_instructions_provider, hl, hpos, hv]
  · cases hl : st.lookup k with
    | none => simp [create_instructions_provider, hl, h0]
    | some v =>
      by_cases hv : v = ""
      · subst hv
        simp [create_instructions_provider, hl, h0]
      · have hpos : 0 < v.length := (string_length_pos_iff v).mpr hv
        simp [create_instructions_provider, hl, hpos, hfa, hv]
  · intro st2 h2
    simp [create_instructions_provider, h2]

/-- Witness for C8: with a non-empty critique stored under `"critique"`,
the provider yields the feedback-incorporating instructions. -/
theorem create_instructions_provider_spec_witness :
    (create_instructions_provider "critique" "revise" "original"
        [("critique", "needs work")] = "revise" ↔
      ∃ v, ([("critique", "needs work")] :
          List (String × String)).lookup "critique" = some v ∧ v ≠ "") ∧
    (create_instructions_provider "critique" "revise" "original"
        [("critique", "needs work")] = "original" ↔
      (([("critique", "needs work")] :
          List (String × String)).lookup "critique" = none ∨
        ([("critique", "needs work")] :
          List (String × String)).lookup "critique" = some "")) ∧
    (∀ st2, ([("critique", "needs work")] :
        List (String × String)).lookup "critique" = st2.lookup "critique" →
      create_instructions_provider "critique" "revise" "original"
          [("critique", "needs work")] =
        create_instructions_provider "critique" "revise" "original" st2) :=
  create_instructions_provider_spec "critique" "revise" "original"
    [("critique", "needs work")] (by decide)

/-- C10: for a function whose declared parameters are among
`team1`, `team2`, `game_date`, `call_function` invokes it exactly once,
passing precisely the declared parameters with their run values (undeclared
ones dropped), and returns the function's result unchanged. -/
theorem call_function_spec {α : Type} (func : PyFunction α)
    (t1 t2 gd : String)
    (hsub : ∀ p ∈ func.params, p = "team1" ∨ p = "team2" ∨ p = "game_date") :
    call_function func t1 t2 gd =
      (func.impl (func.params.map (fun n => (n, availableAssign t1 t2 gd n))),
       [func.params.map (fun n => (n, availableAssign t1 t2 gd n))]) := by
  unfold call_function
  dsimp only
  rw [params_to_pass_eq t1 t2 gd func.params hsub]

/-- Witness for C10: a function declaring `game_date` and `team1` (in that
order) is called once with exactly those two keyword arguments; `team2` is
dropped. -/
theorem call_function_spec_witness :
    call_function
        (⟨["game_date", "team1"], fun kw => kw⟩ :
          PyFunction (List (String × String))) "LAL" "BOS" "2026-01-17" =
      ([("game_date", "2026-01-17"), ("team1", "LAL")],
       [[("game_date", "2026-01-17"), ("team1", "LAL")]]) :=
  (call_function_spec
      (⟨["game_date", "team1"], fun kw => kw⟩ :
        PyFunction (List (String × String))) "LAL" "BOS" "2026-01-17"
      (by decide)).trans (by decide)

/-- C3: when the critic never emits the accept signal, the refinement loop
performs exactly `MAX_ITERATIONS = 3` worker invocations and returns the
third (last) candidate — the one produced from the critique of the second —
as a forced accept.  Termination is structural: `refineLoop` recurses on a
decreasing budget. -/
theorem refinement_loop_bounded (worker : Nat → String → String)
    (critic : String → CriticVerdict) (fb : String → String)
    (h : ∀ s, critic s = CriticVerdict.feedback (fb s)) :
    (refinementRun worker critic).2 = MAX_ITERATIONS ∧
    (refinementRun worker critic).1 =
      worker 2 (fb (worker 1 (fb (worker 0 "")))) := by
  simp [refinementRun, MAX_ITERATIONS, refineLoop, h]

/-- Witness for C3: a critic that always returns textual feedback forces
three worker invocations and the third candidate as the result. -/
theorem refinement_loop_bounded_witness :
    (refinementRun (fun i _ => (["a", "b", "c"].getD i ""))
        (fun s => CriticVerdict.feedback ("f" ++ s))).2 = MAX_ITERATIONS ∧
    (refinementRun (fun i _ => (["a", "b", "c"].getD i ""))
        (fun s => CriticVerdict.feedback ("f" ++ s))).1 = "c" :=
  ⟨(refinement_loop_bounded (fun i _ => (["a", "b", "c"].getD i ""))
      (fun s => CriticVerdict.feedback ("f" ++ s)) (fun s => "f" ++ s)
      (fun _ => rfl)).1,
   (refinement_loop_bounded (fun i _ => (["a", "b", "c"].getD i ""))
      (fun s => CriticVerdict.feedback ("f" ++ s)) (fun s => "f" ++ s)
      (fun _ => rfl)).2.trans (by decide)⟩

/-- The writer drafts of a concrete editorial run: a fresh draft per
iteration. -/
def c1WriterStep : Nat → String → String :=
  fun i _ => ["draft one", "draft two", "draft three"].getD i ""

/-- The critic feedback of the same run: textual critique of each draft. -/
def c1CriticStep : String → String := fun s => "needs work on " ++ s

/-- C1: evaluation of `write_editorial`'s result selection
(`return results[-1][1]`, orchestrator.py line 337) on a concrete editorial
run.  The critic of the editorial loop is built without tools
(lines 177-182), so it cannot emit the exit signal and the loop runs all
three iterations; the last collected event is the critic's final critique,
and that — not the writer's last candidate `"draft three"` — is what
`write_editorial` returns, contradicting the claim (which the spec's own
section 9 already flags as the intended behaviour the code misses). -/
theorem write_editorial_returns_critic_text :
    write_editorial_result c1WriterStep c1CriticStep =
      "needs work on draft three" ∧
    (editorialEvents c1WriterStep c1CriticStep MAX_ITERATIONS 0 "").getLast? =
      some ("critic", "needs work on draft three") ∧
    write_editorial_result c1WriterStep c1CriticStep ≠ "draft three" := by
  refine ⟨rfl, rfl, ?_⟩
  decide

/-- C2: evaluation of one `generate_match_analysis` pipeline run: the
execution log contains every research task's logic twice — once from the
step-1 `generate_research` call and once from the recomputation inside
`write_editorial` (orchestrator.py line 175), which discards the findings
it was handed.  The claim's "exactly once" count would be 1. -/
theorem research_logic_runs_twice :
    (generate_match_analysis researchTaskNames (fun n => "findings for " ++ n)
        (fun _ => "the report")).2 =
      researchTaskNames ++ researchTaskNames ∧
    (generate_match_analysis researchTaskNames (fun n => "findings for " ++ n)
        (fun _ => "the report")).2.count "team_performance" = 2 := by
  refine ⟨rfl, ?_⟩
  decide

/-- A small concrete client configuration mirroring the runtime shape: the
category-selection tool in the `"base"` bin, two NBA data tools binned under
`"player"` and `"team"`, one persistent Perplexity tool, and the
tool-to-session routing map built as in `OpenAIClient.__init__`. -/
def demoCli : OpenAIClientState :=
  { tool_to_session :=
      [("get_tools_by_category", "nba"), ("get_player_name_from_id", "nba"),
       ("get_team_name_from_id", "nba"), ("search", "perplexity")],
    nba_tools_by_category :=
      [("base", [⟨"get_tools_by_category"⟩]),
       ("player", [⟨"get_player_name_from_id"⟩]),
       ("team", [⟨"get_team_name_from_id"⟩])],
    persistent_tools_openai := [⟨"search"⟩] }

/-- A backend oracle for the non-category tools that reports a failure:
no structured content, only an error-text fragment. -/
def demoOther : String → List String → CallToolResult :=
  fun _ _ =>
    { structuredContent := none, content := [some "tool failed: rate limited"] }

/-- The visible tool list after an earlier category-selection call for both
`"player"` and `"team"`: all three NBA tools plus the persistent tool. -/
def demoWideState : LoopState :=
  { full_messages := [],
    current_tools :=
      [⟨"get_tools_by_category"⟩, ⟨"get_player_name_from_id"⟩,
       ⟨"get_team_name_from_id"⟩, ⟨"search"⟩] }

/-- C9: a tool call whose name is in neither backend's catalog misses the
`tool_to_session` routing map, and the resulting `KeyError` escapes the
conversation loop; no tool-result turn is produced for the model to recover
from. -/
theorem unknown_tool_name_raises (cli : OpenAIClientState) (backend : Backend)
    (rest : List ModelMsg) (st : LoopState) (m : ModelMsg) (call : ToolCall)
    (hm : m.tool_calls = [call])
    (hroute : cli.tool_to_session.lookup call.name = none) :
    runConv cli backend (m :: rest) st =
      Except.error (PyErr.keyError call.name) := by
  simp [runConv, hm, processCalls, processCall, hroute]

/-- Witness for C9: a model response requesting the unknown tool
`"made_up_tool"` makes the loop fail with that `KeyError`. -/
theorem unknown_tool_name_raises_witness :
    runConv demoCli (mkNbaBackend demoOther)
        [⟨none, [⟨"call_7", "made_up_tool", []⟩]⟩] ⟨[], []⟩ =
      Except.error (PyErr.keyError "made_up_tool") :=
  unknown_tool_name_raises demoCli (mkNbaBackend demoOther) [] ⟨[], []⟩
    ⟨none, [⟨"call_7", "made_up_tool", []⟩]⟩ ⟨"call_7", "made_up_tool", []⟩
    rfl rfl

/-- C7: a backend-reported failure of a routed, non-category tool call is
never raised: the loop wraps the failure's text fragments as the
`result` payload, appends it as that call's tool-result turn, leaves the
visible tools untouched, and proceeds to the next model exchange. -/
theorem failed_tool_call_absorbed (cli : OpenAIClientState) (backend : Backend)
    (rest : List ModelMsg) (st : LoopState) (m : ModelMsg) (call : ToolCall)
    (sess : String)
    (hm : m.tool_calls = [call])
    (hname : call.name ≠ "get_tools_by_category")
    (hroute : cli.tool_to_session.lookup call.name = some sess)
    (herr : (backend call.name call.args).structuredContent = none) :
    runConv cli backend (m :: rest) st =
      runConv cli backend rest
        { full_messages := st.full_messages ++ [assistantMsgOf m,
            { role := "tool", tool_call_id := some call.id,
              content := some (MsgContent.payload
                [("result",
                  JVal.jstr (joinedText (backend call.name call.args).content))]) }],
          current_tools := st.current_tools } := by
  simp [runConv, hm, processCalls, processCall, hroute, hname,
    payloadOfResult, herr]

/-- Witness for C7: a failing `get_player_name_from_id` call is appended as
an error payload and the loop moves on to the next scripted exchange. -/
theorem failed_tool_call_absorbed_witness :
    runConv demoCli (mkNbaBackend demoOther)
        [⟨none, [⟨"call_1", "get_player_name_from_id", ["2544"]⟩]⟩,
         ⟨some "final answer", []⟩] ⟨[], []⟩ =
      runConv demoCli (mkNbaBackend demoOther) [⟨some "final answer", []⟩]
        { full_messages := ([] : List Msg) ++
            [assistantMsgOf ⟨none, [⟨"call_1", "get_player_name_from_id", ["2544"]⟩]⟩,
             { role := "tool", tool_call_id := some "call_1",
               content := some (MsgContent.payload
                 [("result",
                   JVal.jstr (joinedText (mkNbaBackend demoOther
                     "get_player_name_from_id" ["2544"]).content))]) }],
          current_tools := ([] : List OATool) } :=
  failed_tool_call_absorbed demoCli (mkNbaBackend demoOther)
    [⟨some "final answer", []⟩] ⟨[], []⟩
    ⟨none, [⟨"call_1", "get_player_name_from_id", ["2544"]⟩]⟩
    ⟨"call_1", "get_player_name_from_id", ["2544"]⟩ "nba"
    rfl (by decide) rfl rfl

/-- C5: a successful category-selection call replaces, rather than merges,
the visible tool set: whatever `st.current_tools` held before, the state
after the call carries exactly the tools of the returned categories
(the normalised request united with `"base"`, per the last conjunct),
deduplicated by tool name, followed by the persistent tools. -/
theorem category_selection_replaces_visible_tools
    (cli : OpenAIClientState) (other : String → List String → CallToolResult)
    (st : LoopState) (call : ToolCall) (sess : String) (cats : List String)
    (hname : call.name = "get_tools_by_category")
    (hroute : cli.tool_to_session.lookup call.name = some sess)
    (hok : get_tools_by_category call.args = Except.ok cats)
    (hkeys : ∀ c ∈ cats, (cli.nba_tools_by_category.lookup c).isSome = true) :
    ∃ newNba : List OATool,
      processCall cli (mkNbaBackend other) st call = Except.ok
        { full_messages := st.full_messages ++ [toolAckMsg call.id],
          current_tools := newNba ++ cli.persistent_tools_openai } ∧
      (newNba.map OATool.name).Nodup ∧
      (∀ n, n ∈ newNba.map OATool.name ↔
        ∃ c ∈ cats, ∃ ts, cli.nba_tools_by_category.lookup c = some ts ∧
          n ∈ ts.map OATool.name) ∧
      (∀ s, s ∈ cats ↔ s = "base" ∨ ∃ a ∈ call.args, normalizeTag a = s) := by
  obtain ⟨cid, cname, cargs⟩ := call
  dsimp only at hname hroute hok ⊢
  subst hname
  rcases get_tool_subset_spec cli.nba_tools_by_category cats hkeys with
    ⟨res, hres, hnd, hmem⟩
  refine ⟨res, ?_, hnd, hmem, fun s => (gtbc_ok_spec cargs cats hok).2.2 s⟩
  simp [processCall, hroute, mkNbaBackend, hok, payloadOfResult, pyIterStrs,
    hres, toolAckMsg]

/-- Witness for C5: from the wide state produced by an earlier
`("player", "team")` selection, a `["player"]` request strictly narrows
`current_tools` to the base and player tools plus the persistent tool,
independent of what was visible before. -/
theorem category_selection_replaces_visible_tools_witness :
    ∃ newNba : List OATool,
      processCall demoCli (mkNbaBackend demoOther) demoWideState
          ⟨"call_2", "get_tools_by_category", ["player"]⟩ = Except.ok
        { full_messages := demoWideState.full_messages ++ [toolAckMsg "call_2"],
          current_tools := newNba ++ demoCli.persistent_tools_openai } ∧
      (newNba.map OATool.name).Nodup ∧
      (∀ n, n ∈ newNba.map OATool.name ↔
        ∃ c ∈ (["base", "player"] : List String), ∃ ts,
          demoCli.nba_tools_by_category.lookup c = some ts ∧
            n ∈ ts.map OATool.name) ∧
      (∀ s, s ∈ (["base", "player"] : List String) ↔
        s = "base" ∨ ∃ a ∈ (["player"] : List String), normalizeTag a = s) :=
  category_selection_replaces_visible_tools demoCli demoOther demoWideState
    ⟨"call_2", "get_tools_by_category", ["player"]⟩ "nba" ["base", "player"]
    rfl rfl rfl (by decide)

/-- Counterexample for C4: a concrete `get_completion` run in which the
model requests the category-selection tool with the unknown tag `"foo"`.
The claim says the loop receives an error message, keeps `current_tools`
unchanged and continues (here: to the scripted final answer `"done"`);
instead the whole call aborts with a `KeyError` — the backend's error text
is fed to `get_tool_subset` as the category iterable, and its first
character `"E"` is looked up as a category name. -/
theorem category_error_aborts_get_completion :
    get_completion demoCli (mkNbaBackend demoOther)
        [⟨none, [⟨"call_1", "get_tools_by_category", ["foo"]⟩]⟩,
         ⟨some "done", []⟩] "system prompt" [] =
      Except.error (PyErr.keyError "E") ∧
    get_completion demoCli (mkNbaBackend demoOther)
        [⟨none, [⟨"call_1", "get_tools_by_category", ["foo"]⟩]⟩,
         ⟨some "done", []⟩] "system prompt" [] ≠
      Except.ok (some "done") := by
  have h1 : get_completion demoCli (mkNbaBackend demoOther)
      [⟨none, [⟨"call_1", "get_tools_by_category", ["foo"]⟩]⟩,
       ⟨some "done", []⟩] "system prompt" [] =
      Except.error (PyErr.keyError "E") := rfl
  refine ⟨h1, ?_⟩
  rw [h1]
  intro h
  exact Except.noConfusion h

/-- C4 (amended): a category-selection call with an unrecognised tag makes
`get_tools_by_category` raise a `ValueError` whose message enumerates the
valid tags; the conversation loop does not capture it as a tool-result
turn — the error text becomes the backend payload (second conjunct), the
loop iterates over that text character by character as if it were the
category list, and `processCall` aborts with `KeyError "E"` before any new
`current_tools` value is produced, so the visible tool set is never
modified but the loop cannot continue. -/
theorem invalid_category_selection_aborts
    (cli : OpenAIClientState) (other : String → List String → CallToolResult)
    (st : LoopState) (call : ToolCall) (sess m : String)
    (hname : call.name = "get_tools_by_category")
    (hroute : cli.tool_to_session.lookup call.name = some sess)
    (herr : get_tools_by_category call.args = Except.error m)
    (hE : cli.nba_tools_by_category.lookup "E" = none) :
    processCall cli (mkNbaBackend other) st call =
      Except.error (PyErr.keyError "E") ∧
    mkNbaBackend other call.name call.args =
      { structuredContent := none,
        content :=
          [some ("Error executing tool get_tools_by_category: " ++ m)] } := by
  obtain ⟨cid, cname, cargs⟩ := call
  dsimp only at hname hroute herr ⊢
  subst hname
  have hdata : ("Error executing tool get_tools_by_category: " ++ m).data =
      'E' :: ("rror executing tool get_tools_by_category: " ++ m).data := rfl
  have htext : ("Error executing tool get_tools_by_category: " ++ m) ≠ "" := by
    intro h
    have h2 := congrArg String.data h
    rw [hdata] at h2
    exact List.cons_ne_nil _ _ (h2.trans rfl)
  have hjoin : joinedText
      [some ("Error executing tool get_tools_by_category: " ++ m)] =
      "Error executing tool get_tools_by_category: " ++ m :=
    joinedText_single _ htext
  constructor
  · have hiter : pyIterStrs
        (JVal.jstr ("Error executing tool get_tools_by_category: " ++ m)) =
        "E" :: (("rror executing tool get_tools_by_category: " ++ m).data.map
          (fun c => String.mk [c])) := rfl
    have hsub : get_tool_subset cli.nba_tools_by_category
        (pyIterStrs
          (JVal.jstr ("Error executing tool get_tools_by_category: " ++ m))) =
        Except.error "E" := by
      rw [hiter]
      simp [get_tool_subset, get_tool_subset_aux, hE]
    simp [processCall, hroute, mkNbaBackend, herr, payloadOfResult, hjoin, hsub]
  · simp [mkNbaBackend, herr]

/-- Witness for the amended C4: the concrete request `["nonsense"]` aborts
`processCall` with `KeyError "E"`, the backend error text carrying the full
enumeration of valid tags. -/
theorem invalid_category_selection_aborts_witness :
    processCall demoCli (mkNbaBackend demoOther) ⟨[], []⟩
        ⟨"call_9", "get_tools_by_category", ["nonsense"]⟩ =
      Except.error (PyErr.keyError "E") ∧
    mkNbaBackend demoOther "get_tools_by_category" ["nonsense"] =
      { structuredContent := none,
        content := [some ("Error executing tool get_tools_by_category: " ++
          ("Invalid categories: [\x27nonsense\x27]. Allowed: [\x27boxscore\x27, " ++
           "\x27draft\x27, \x27franchise\x27, \x27game\x27, \x27league\x27, " ++
           "\x27player\x27, \x27playoff\x27, \x27season\x27, \x27team\x27]"))] } :=
  invalid_category_selection_aborts demoCli demoOther ⟨[], []⟩
    ⟨"call_9", "get_tools_by_category", ["nonsense"]⟩ "nba"
    ("Invalid categories: [\x27nonsense\x27]. Allowed: [\x27boxscore\x27, " ++
     "\x27draft\x27, \x27franchise\x27, \x27game\x27, \x27league\x27, " ++
     "\x27player\x27, \x27playoff\x27, \x27season\x27, \x27team\x27]")
    rfl rfl rfl rfl

end NBAChat
